import Mathlib

/-
Verification of the multistep stepper widget's state model against its two
implementations: the React hook `useAccessibleStepper` (src/hoc/react.tsx)
and the `AccessibleStepper` web component (src/main.js).  JavaScript numbers
appearing here are small integers, modelled as `Int` (with `ℚ` for the one
division in the progress formula); `Record` objects are modelled as partial
maps.
-/

namespace Multistep

/-- Settled result of a step validator: the TypeScript union
`boolean | string` (`validateStep` may return it directly or through a
promise; the hook only ever observes the settled value). -/
inductive VRes where
  | bool (b : Bool)
  | str (s : String)
deriving DecidableEq, Repr

/-- Value stored in an `errors` entry of the hook state: the `null` written
after a successful validation, or the raw rejection value the validator
settled to (a message string, or the boolean `false` passed through the
`as string` cast in the source). -/
inductive ErrVal where
  | nullv
  | strv (s : String)
  | falsev
deriving DecidableEq, Repr

/-- Plain string-keyed JavaScript object with values of type `V`, as a
partial map from field names; `none` means the field is absent. -/
def Obj (V : Type) : Type := String → Option V

/-- Empty JavaScript object `{}`. -/
def emptyObj (V : Type) : Obj V := fun _ => none

/-- Singleton object literal `{f: v}`. -/
def objSingle {V : Type} (f : String) (v : V) : Obj V :=
  fun g => if g = f then some v else none

/-- Object literal `{a: 1, b: 2}` from the spec's round-trip example. -/
def objAB : Obj Int :=
  fun g => if g = "a" then some 1 else if g = "b" then some 2 else none

/-- Spread merge `{ ...base, ...patch }`: fields present in `patch` override
those of `base`. -/
def spreadMerge {V : Type} (base patch : Obj V) : Obj V :=
  fun f =>
    match patch f with
    | some v => some v
    | none => base f

/-- Update of one key of a numeric `Record` viewed as a partial map:
`{ ...prev, [k]: v }`. -/
def recSet {A : Type} (m : Int → Option A) (k : Int) (v : A) : Int → Option A :=
  fun j => if j = k then some v else m j

/-- State held by `useAccessibleStepper` (react.tsx lines 85-87): the three
`useState` cells `currentStep`, `stepData` and `errors`.  `stepData` maps a
step index to that step's data object; `errors` maps a step index to its
entry in the `Record<number, string | null>`, with `none` for an absent key. -/
structure HookState (V : Type) where
  currentStep : Int
  stepData : Int → Option (Obj V)
  errors : Int → Option ErrVal

/-- Initial hook state: `useState(initialStep)`, `useState({})`,
`useState({})`.  The source does not clamp `initialStep`. -/
def hookInit (V : Type) (initialStep : Int) : HookState V :=
  ⟨initialStep, fun _ => none, fun _ => none⟩

/-- Outcome of a hook navigation operation: the returned boolean, the
successor state, and the `onStepChange` payload `(current, previous)` when
that callback fires. -/
structure NavResult (V : Type) where
  ok : Bool
  state : HookState V
  event : Option (Int × Int)

/-- Rejection value stored by `setErrors((prev) => ({ ...prev,
[currentStep]: validationResult as string }))` (react.tsx line 108); this
branch is reached only when the settled value is not the literal `true`, so
the boolean case can only carry `false`. -/
def rejectVal (r : VRes) : ErrVal :=
  match r with
  | .str s => ErrVal.strv s
  | .bool _ => ErrVal.falsev

/-- Shared accepted branch of `next()` (react.tsx lines 113-117): set this
step's error entry to `null`, advance `currentStep` by one, fire
`onStepChange(nextStep, currentStep)`, return `true`. -/
def nextAccept {V : Type} (s : HookState V) : NavResult V :=
  NavResult.mk true
    { s with
        errors := recSet s.errors s.currentStep ErrVal.nullv
        currentStep := s.currentStep + 1 }
    (some (s.currentStep + 1, s.currentStep))

/-- Hook `next()` (react.tsx lines 102-118).  `totalSteps` is the hook's
argument; the guard is `canGoNext = currentStep < totalSteps - 1`
(react.tsx line 89).  `vres` is the value the configured `validateStep`
settles to when invoked at `(currentStep, stepData[currentStep])` for this
call, and `none` means no validator is configured; `validateStep` may be
impure or asynchronous, so the settled value is an input of each
invocation. -/
def next {V : Type} (totalSteps : Int) (vres : Option VRes) (s : HookState V) :
    NavResult V :=
  if s.currentStep < totalSteps - 1 then
    match vres with
    | some r =>
      if r ≠ VRes.bool true then
        NavResult.mk false
          { s with errors := recSet s.errors s.currentStep (rejectVal r) } none
      else nextAccept s
    | none => nextAccept s
  else NavResult.mk false s none

/-- Hook `previous()` (react.tsx lines 120-126): blocked at index 0
(`canGoPrev = currentStep > 0`), otherwise decrement unconditionally and
fire `onStepChange(prevStep, currentStep)`. -/
def previous {V : Type} (s : HookState V) : NavResult V :=
  if 0 < s.currentStep then
    NavResult.mk true { s with currentStep := s.currentStep - 1 }
      (some (s.currentStep - 1, s.currentStep))
  else NavResult.mk false s none

/-- Hook `goTo(step)` (react.tsx lines 128-137): reject an out-of-range
target (`step < 0 || step >= totalSteps`) with `false` and no state change,
otherwise set the index and fire `onStepChange(step, oldStep)` — also when
`step` equals the current index. -/
def goTo {V : Type} (totalSteps step : Int) (s : HookState V) : NavResult V :=
  if step < 0 ∨ totalSteps ≤ step then NavResult.mk false s none
  else NavResult.mk true { s with currentStep := step } (some (step, s.currentStep))

/-- Outcome of the hook's `complete()`: the returned boolean, the successor
state, and the `onComplete` payload (the full `stepData` mapping) when that
callback fires. -/
structure CompleteResult (V : Type) where
  ok : Bool
  state : HookState V
  completed : Option (Int → Option (Obj V))

/-- Hook `complete()` (react.tsx lines 139-149): run the validator exactly
as `next()` does, against the current step; on rejection store the settled
value as this step's error and return `false`; otherwise call
`onComplete(stepData)` and return `true`.  `currentStep` is never written. -/
def complete {V : Type} (vres : Option VRes) (s : HookState V) : CompleteResult V :=
  match vres with
  | some r =>
    if r ≠ VRes.bool true then
      CompleteResult.mk false
        { s with errors := recSet s.errors s.currentStep (rejectVal r) } none
    else CompleteResult.mk true s (some s.stepData)
  | none => CompleteResult.mk true s (some s.stepData)

/-- Hook `reset()` (react.tsx lines 151-155): `setCurrentStep(initialStep)`,
`setStepData({})`, `setErrors({})`; no notification is fired. -/
def reset (V : Type) (initialStep : Int) (_s : HookState V) : HookState V :=
  ⟨initialStep, fun _ => none, fun _ => none⟩

/-- Hook `updateStepData(step, data)` (react.tsx lines 95-100):
`setStepData((prev) => ({ ...prev, [step]: { ...(prev[step] ?? {}),
...data } }))`. -/
def updateStepData {V : Type} (step : Int) (data : Obj V) (s : HookState V) :
    HookState V :=
  { s with
      stepData :=
        recSet s.stepData step
          (spreadMerge ((s.stepData step).getD (emptyObj V)) data) }

/-- Hook `setCurrentStep(step)`: the raw `useState` setter from react.tsx
line 85, returned to callers at line 173; it stores the argument as-is,
with no range check. -/
def setCurrentStep {V : Type} (step : Int) (s : HookState V) : HookState V :=
  { s with currentStep := step }

/-- JavaScript `Math.round` on the rational model of numbers:
`⌊x + 1/2⌋` (halves round toward positive infinity). -/
def jsRound (q : ℚ) : Int := Int.floor (q + 1/2)

/-- Hook derived read `progress = totalSteps > 1 ?
Math.round((currentStep / (totalSteps - 1)) * 100) : 100` (react.tsx line
93); like the source, a function of the state recomputed on each read, not
a stored field. -/
def hookProgress {V : Type} (totalSteps : Int) (s : HookState V) : Int :=
  if 1 < totalSteps then jsRound (((s.currentStep : ℚ) / ((totalSteps : ℚ) - 1)) * 100)
  else 100

/-- Observable state of the `AccessibleStepper` custom element
(src/main.js): the `_current` field plus the number of `[data-step]`
children, which is fixed while no children are added or removed. -/
structure WCState where
  current : Int
  totalSteps : Int
deriving DecidableEq, Repr

/-- Web-component setter `set currentStep(value)` (main.js lines 296-304):
clamp with `Math.max(0, Math.min(value, this.totalSteps - 1))` and, only
when the clamped value differs from `_current`, store it and run
`_showStep(step, oldStep)`, which dispatches the `stepchange` event; the
returned pair is the `(current, previous)` carried by that event (`none`
when no event fires). -/
def wcSetCurrentStep (value : Int) (s : WCState) : WCState × Option (Int × Int) :=
  let step := max 0 (min value (s.totalSteps - 1))
  if step ≠ s.current then ({ s with current := step }, some (step, s.current))
  else (s, none)

/-- Web-component `next()` (main.js lines 310-314): guarded by
`_current < totalSteps - 1`, then delegates to the `currentStep` setter;
returns no value. -/
def wcNext (s : WCState) : WCState × Option (Int × Int) :=
  if s.current < s.totalSteps - 1 then wcSetCurrentStep (s.current + 1) s
  else (s, none)

/-- Web-component `previous()` (main.js lines 316-320): guarded by
`_current > 0`, then delegates to the `currentStep` setter; returns no
value. -/
def wcPrevious (s : WCState) : WCState × Option (Int × Int) :=
  if 0 < s.current then wcSetCurrentStep (s.current - 1) s
  else (s, none)

/-- Web-component `goTo(index)` (main.js lines 322-324): assigns the
`currentStep` setter with no range check of its own and returns no value. -/
def wcGoTo (index : Int) (s : WCState) : WCState × Option (Int × Int) :=
  wcSetCurrentStep index s

/-- Web-component getter `get progress` (main.js lines 306-308):
`totalSteps > 1 ? Math.round((_current / (totalSteps - 1)) * 100) : 100`;
recomputed on each read. -/
def wcProgress (s : WCState) : Int :=
  if 1 < s.totalSteps then jsRound (((s.current : ℚ) / ((s.totalSteps : ℚ) - 1)) * 100)
  else 100

/-- Index invariant from the spec: `0 ≤ index < totalSteps`. -/
def InRange (totalSteps index : Int) : Prop :=
  0 ≤ index ∧ index < totalSteps

instance (totalSteps index : Int) : Decidable (InRange totalSteps index) :=
  inferInstanceAs (Decidable (0 ≤ index ∧ index < totalSteps))

/-- Hook states of one session (fixed `totalSteps` and `initialStep`)
reachable from the initial state through the public operation set. -/
inductive hookReachable (V : Type) (totalSteps initialStep : Int) :
    HookState V → Prop where
  | init : hookReachable V totalSteps initialStep (hookInit V initialStep)
  | stepNext (vres : Option VRes) (s : HookState V) :
      hookReachable V totalSteps initialStep s →
      hookReachable V totalSteps initialStep (next totalSteps vres s).state
  | stepPrevious (s : HookState V) :
      hookReachable V totalSteps initialStep s →
      hookReachable V totalSteps initialStep (previous s).state
  | stepGoTo (i : Int) (s : HookState V) :
      hookReachable V totalSteps initialStep s →
      hookReachable V totalSteps initialStep (goTo totalSteps i s).state
  | stepComplete (vres : Option VRes) (s : HookState V) :
      hookReachable V totalSteps initialStep s →
      hookReachable V totalSteps initialStep (complete vres s).state
  | stepReset (s : HookState V) :
      hookReachable V totalSteps initialStep s →
      hookReachable V totalSteps initialStep (reset V initialStep s)
  | stepUpdate (k : Int) (data : Obj V) (s : HookState V) :
      hookReachable V totalSteps initialStep s →
      hookReachable V totalSteps initialStep (updateStepData k data s)
  | stepSet (i : Int) (s : HookState V) :
      hookReachable V totalSteps initialStep s →
      hookReachable V totalSteps initialStep (setCurrentStep i s)

/-- Entry at step `k` after the spec's two-patch round-trip
`updateStepData(k, {a: va})` then `updateStepData(k, {b: vb})`, with an
absent entry read as `{}`. -/
def roundTripEntry {V : Type} (k : Int) (va vb : V) (s : HookState V) : Obj V :=
  ((updateStepData k (objSingle "b" vb)
      (updateStepData k (objSingle "a" va) s)).stepData k).getD (emptyObj V)

theorem next_blocked {V : Type} {totalSteps : Int} (vres : Option VRes)
    {s : HookState V} (h : ¬ s.currentStep < totalSteps - 1) :
    next totalSteps vres s = NavResult.mk false s none := by
  unfold next
  rw [if_neg h]

theorem next_reject {V : Type} {totalSteps : Int} {r : VRes} {s : HookState V}
    (h : s.currentStep < totalSteps - 1) (hr : r ≠ VRes.bool true) :
    next totalSteps (some r) s
      = NavResult.mk false
          { s with errors := recSet s.errors s.currentStep (rejectVal r) } none := by
  unfold next
  rw [if_pos h]
  dsimp only
  rw [if_pos hr]

theorem next_accept_true {V : Type} {totalSteps : Int} {s : HookState V}
    (h : s.currentStep < totalSteps - 1) :
    next totalSteps (some (VRes.bool true)) s = nextAccept s := by
  unfold next
  rw [if_pos h]
  dsimp only
  rw [if_neg (by simp)]

theorem next_accept_none {V : Type} {totalSteps : Int} {s : HookState V}
    (h : s.currentStep < totalSteps - 1) :
    next totalSteps none s = nextAccept s := by
  unfold next
  rw [if_pos h]

theorem next_cs {V : Type} (totalSteps : Int) (vres : Option VRes)
    (s : HookState V) :
    (next totalSteps vres s).state.currentStep = s.currentStep ∨
      ((next totalSteps vres s).state.currentStep = s.currentStep + 1 ∧
        s.currentStep < totalSteps - 1) := by
  by_cases h : s.currentStep < totalSteps - 1
  · rcases vres with _ | r
    · rw [next_accept_none h]
      exact Or.inr ⟨rfl, h⟩
    · by_cases hr : r = VRes.bool true
      · subst hr
        rw [next_accept_true h]
        exact Or.inr ⟨rfl, h⟩
      · rw [next_reject h hr]
        exact Or.inl rfl
  · rw [next_blocked vres h]
    exact Or.inl rfl

theorem previous_cs {V : Type} (s : HookState V) :
    (previous s).state.currentStep = s.currentStep ∨
      ((previous s).state.currentStep = s.currentStep - 1 ∧ 0 < s.currentStep) := by
  unfold previous
  split
  case isTrue h => exact Or.inr ⟨rfl, h⟩
  case isFalse h => exact Or.inl rfl

theorem goTo_cs {V : Type} (totalSteps i : Int) (s : HookState V) :
    (goTo totalSteps i s).state.currentStep = s.currentStep ∨
      ((goTo totalSteps i s).state.currentStep = i ∧ 0 ≤ i ∧ i < totalSteps) := by
  unfold goTo
  split
  case isTrue h => exact Or.inl rfl
  case isFalse h => exact Or.inr ⟨rfl, by omega⟩

theorem complete_cs {V : Type} (vres : Option VRes) (s : HookState V) :
    (complete vres s).state.currentStep = s.currentStep := by
  unfold complete
  rcases vres with _ | r
  · rfl
  · dsimp only
    split <;> rfl

theorem wcSet_current (v : Int) (w : WCState) :
    (wcSetCurrentStep v w).1.current = max 0 (min v (w.totalSteps - 1)) := by
  unfold wcSetCurrentStep
  dsimp only
  split
  case isTrue h => rfl
  case isFalse h => exact (not_ne_iff.mp h).symm

theorem wcSet_total (v : Int) (w : WCState) :
    (wcSetCurrentStep v w).1.totalSteps = w.totalSteps := by
  unfold wcSetCurrentStep
  dsimp only
  split <;> rfl

theorem wcSet_event_none (v : Int) (w : WCState)
    (h : max 0 (min v (w.totalSteps - 1)) = w.current) :
    (wcSetCurrentStep v w).2 = none := by
  unfold wcSetCurrentStep
  dsimp only
  rw [if_neg (not_ne_iff.mpr h)]

theorem wcSet_event_some (v : Int) (w : WCState)
    (h : max 0 (min v (w.totalSteps - 1)) ≠ w.current) :
    (wcSetCurrentStep v w).2
      = some (max 0 (min v (w.totalSteps - 1)), w.current) := by
  unfold wcSetCurrentStep
  dsimp only
  rw [if_pos h]

/-- C1 counterexample: in the hook with `totalSteps = 3`, the initial state
(index 0) is reachable, yet the single public operation `setCurrentStep 5`
leaves `currentIndex = 5`, outside `[0, 3)` — the raw setter does not
clamp. -/
theorem c1_invariant_counterexample :
    hookReachable Int 3 0 (hookInit Int 0) ∧
      ¬ InRange 3 (setCurrentStep 5 (hookInit Int 0)).currentStep :=
  ⟨hookReachable.init, by decide⟩

/-- C1 amended: with `totalSteps ≥ 1`, an in-range initial index and a
current state satisfying `0 ≤ currentIndex < totalSteps`, every public hook
operation except `setCurrentStep` (that is: `next`, `previous`, `goTo`,
`complete`, `reset`, `updateStepData`) preserves the invariant; the hook's
`setCurrentStep` stores its argument unchanged, so it preserves the
invariant only for in-range arguments; and the web component's operations
(`next`, `previous`, `goTo`, the `currentStep` setter) preserve the
invariant for arbitrary arguments. -/
theorem c1_invariant_amended {V : Type} (totalSteps initialStep : Int)
    (hinit : InRange totalSteps initialStep)
    (s : HookState V) (hs : InRange totalSteps s.currentStep)
    (vres : Option VRes) (i k v : Int) (data : Obj V)
    (w : WCState) (hw : InRange w.totalSteps w.current) :
    InRange totalSteps (next totalSteps vres s).state.currentStep ∧
    InRange totalSteps (previous s).state.currentStep ∧
    InRange totalSteps (goTo totalSteps i s).state.currentStep ∧
    InRange totalSteps (complete vres s).state.currentStep ∧
    InRange totalSteps (reset V initialStep s).currentStep ∧
    InRange totalSteps (updateStepData k data s).currentStep ∧
    (setCurrentStep i s).currentStep = i ∧
    InRange w.totalSteps (wcNext w).1.current ∧
    InRange w.totalSteps (wcPrevious w).1.current ∧
    InRange w.totalSteps (wcGoTo v w).1.current ∧
    InRange w.totalSteps (wcSetCurrentStep v w).1.current := by
  obtain ⟨hs0, hs1⟩ := hs
  obtain ⟨hw0, hw1⟩ := hw
  obtain ⟨hi0, hi1⟩ := hinit
  have hwset : ∀ u : Int, InRange w.totalSteps (wcSetCurrentStep u w).1.current := by
    intro u
    rw [wcSet_current]
    exact ⟨by omega, by omega⟩
  refine ⟨?_, ?_, ?_, ?_, ⟨hi0, hi1⟩, ⟨hs0, hs1⟩, rfl, ?_, ?_, hwset v, hwset v⟩
  · rcases next_cs totalSteps vres s with h | ⟨h, hlt⟩ <;>
      exact ⟨by omega, by omega⟩
  · rcases previous_cs s with h | ⟨h, hlt⟩ <;>
      exact ⟨by omega, by omega⟩
  · rcases goTo_cs totalSteps i s with h | ⟨h, h0, h1⟩ <;>
      exact ⟨by omega, by omega⟩
  · rw [complete_cs]
    exact ⟨hs0, hs1⟩
  · unfold wcNext
    split
    · exact hwset _
    · exact ⟨hw0, hw1⟩
  · unfold wcPrevious
    split
    · exact hwset _
    · exact ⟨hw0, hw1⟩

/-- C1 witness: the amended invariant theorem instantiated at the concrete
session `totalSteps = 3`, `initialStep = 0`, from the in-range initial
state. -/
theorem c1_invariant_witness :
    InRange 3 (next 3 none (hookInit Int 0)).state.currentStep ∧
    InRange 3 (previous (hookInit Int 0)).state.currentStep ∧
    InRange 3 (goTo 3 1 (hookInit Int 0)).state.currentStep ∧
    InRange 3 (complete none (hookInit Int 0)).state.currentStep ∧
    InRange 3 (reset Int 0 (hookInit Int 0)).currentStep ∧
    InRange 3 (updateStepData 0 (emptyObj Int) (hookInit Int 0)).currentStep ∧
    (setCurrentStep 1 (hookInit Int 0)).currentStep = 1 ∧
    InRange 3 (wcNext (WCState.mk 0 3)).1.current ∧
    InRange 3 (wcPrevious (WCState.mk 0 3)).1.current ∧
    InRange 3 (wcGoTo 99 (WCState.mk 0 3)).1.current ∧
    InRange 3 (wcSetCurrentStep 99 (WCState.mk 0 3)).1.current :=
  c1_invariant_amended 3 0 (by decide) (hookInit Int 0) (by decide)
    none 1 0 99 (emptyObj Int) (WCState.mk 0 3) (by decide)

/-- C2: with `currentIndex < totalSteps - 1` and a configured validator, a
`next()` whose validator settles to the string `msg` returns `false`,
leaves `currentIndex` unchanged and stores `errors[currentIndex] = msg`; a
subsequent `next()` whose validator settles to the literal `true` returns
`true`, advances `currentIndex` by exactly one and clears
`errors[oldIndex]` to `null`. -/
theorem c2_validator_contract {V : Type} (totalSteps : Int) (s : HookState V)
    (msg : String) (h : s.currentStep < totalSteps - 1) :
    (next totalSteps (some (VRes.str msg)) s).ok = false ∧
    (next totalSteps (some (VRes.str msg)) s).state.currentStep = s.currentStep ∧
    (next totalSteps (some (VRes.str msg)) s).state.errors s.currentStep
      = some (ErrVal.strv msg) ∧
    (next totalSteps (some (VRes.bool true))
        (next totalSteps (some (VRes.str msg)) s).state).ok = true ∧
    (next totalSteps (some (VRes.bool true))
        (next totalSteps (some (VRes.str msg)) s).state).state.currentStep
      = s.currentStep + 1 ∧
    (next totalSteps (some (VRes.bool true))
        (next totalSteps (some (VRes.str msg)) s).state).state.errors s.currentStep
      = some ErrVal.nullv := by
  have h1 : next totalSteps (some (VRes.str msg)) s
      = NavResult.mk false
          { s with errors := recSet s.errors s.currentStep (rejectVal (VRes.str msg)) }
          none :=
    next_reject h (by simp)
  rw [h1]
  dsimp only
  have h2 : next totalSteps (some (VRes.bool true))
      { s with errors := recSet s.errors s.currentStep (rejectVal (VRes.str msg)) }
      = nextAccept
          { s with errors := recSet s.errors s.currentStep (rejectVal (VRes.str msg)) } :=
    next_accept_true h
  rw [h2]
  unfold nextAccept rejectVal recSet
  simp

/-- C2 witness: the validator contract run concretely with 3 steps from
index 0 and the message from the spec. -/
theorem c2_validator_contract_witness :
    (next 3 (some (VRes.str "Email required")) (hookInit Int 0)).ok = false ∧
    (next 3 (some (VRes.str "Email required")) (hookInit Int 0)).state.currentStep
      = 0 ∧
    (next 3 (some (VRes.str "Email required")) (hookInit Int 0)).state.errors 0
      = some (ErrVal.strv "Email required") ∧
    (next 3 (some (VRes.bool true))
        (next 3 (some (VRes.str "Email required")) (hookInit Int 0)).state).ok
      = true ∧
    (next 3 (some (VRes.bool true))
        (next 3 (some (VRes.str "Email required")) (hookInit Int 0)).state).state.currentStep
      = 1 ∧
    (next 3 (some (VRes.bool true))
        (next 3 (some (VRes.str "Email required")) (hookInit Int 0)).state).state.errors 0
      = some ErrVal.nullv :=
  c2_validator_contract 3 (hookInit Int 0) "Email required" (by decide)

/-- C3 counterexample: on the web component with 3 steps and
`currentStep = 0`, the out-of-range call `goTo(5)` clamps to 2, changes the
state and dispatches `stepchange` — instead of failing with no state
change; and the in-range idempotent call `goTo(0)` dispatches no event,
against the "always notifies" half of the claim. -/
theorem c3_goTo_counterexample :
    (wcGoTo 5 (WCState.mk 0 3)).1.current = 2 ∧
    (wcGoTo 5 (WCState.mk 0 3)).2 = some (2, 0) ∧
    (wcGoTo 0 (WCState.mk 0 3)).2 = none := by
  decide

/-- C3 amended: the hook's `goTo` behaves exactly as the claim states —
out-of-range targets return `false` with no state change and no
notification, and in-range targets always return `true`, set
`currentIndex = i` and notify with the `(new, old)` pair even when `i`
equals the current index.  The web component's `goTo(index)`, by contrast,
delegates to the clamping `currentStep` setter: the index is always clamped
into range, `totalSteps` is untouched, the state changes and the
`stepchange` event fires exactly when the clamped value differs from the
current index, and no boolean is returned. -/
theorem c3_goTo_amended {V : Type} (totalSteps i : Int) (s : HookState V)
    (w : WCState) (v : Int) :
    (¬ InRange totalSteps i → goTo totalSteps i s = NavResult.mk false s none) ∧
    (InRange totalSteps i →
      goTo totalSteps i s
        = NavResult.mk true { s with currentStep := i } (some (i, s.currentStep))) ∧
    (wcGoTo v w).1.current = max 0 (min v (w.totalSteps - 1)) ∧
    (wcGoTo v w).1.totalSteps = w.totalSteps ∧
    (max 0 (min v (w.totalSteps - 1)) = w.current → (wcGoTo v w).2 = none) ∧
    (max 0 (min v (w.totalSteps - 1)) ≠ w.current →
      (wcGoTo v w).2 = some (max 0 (min v (w.totalSteps - 1)), w.current)) := by
  refine ⟨?_, ?_, wcSet_current v w, wcSet_total v w,
    wcSet_event_none v w, wcSet_event_some v w⟩
  · intro hni
    have hout : i < 0 ∨ totalSteps ≤ i := by
      unfold InRange at hni
      omega
    unfold goTo
    rw [if_pos hout]
  · intro hin
    obtain ⟨h0, h1⟩ := hin
    unfold goTo
    rw [if_neg (by omega)]

/-- C3 witness: the amended theorem applied at concrete inputs — a rejected
hook jump, an accepted idempotent hook jump that still notifies, and a
clamped web-component jump that notifies with the clamped pair. -/
theorem c3_goTo_witness :
    goTo 3 5 (hookInit Int 0) = NavResult.mk false (hookInit Int 0) none ∧
    goTo 3 0 (hookInit Int 0)
      = NavResult.mk true { hookInit Int 0 with currentStep := 0 } (some (0, 0)) ∧
    (wcGoTo 7 (WCState.mk 1 3)).2 = some (2, 1) := by
  refine ⟨(c3_goTo_amended 3 5 (hookInit Int 0) (WCState.mk 1 3) 7).1 (by decide),
    (c3_goTo_amended 3 0 (hookInit Int 0) (WCState.mk 1 3) 7).2.1 (by decide), ?_⟩
  have h := (c3_goTo_amended 3 0 (hookInit Int 0) (WCState.mk 1 3) 7).2.2.2.2.2
    (by decide)
  rw [h]
  decide

/-- C4 counterexample: the hook's `setCurrentStep` is the raw `useState`
setter: with 3 steps, `setCurrentStep(99)` leaves `currentIndex = 99`,
outside `[0, 3)` — nothing is clamped and no failure is reported either
way. -/
theorem c4_setCurrentStep_counterexample :
    (setCurrentStep 99 (hookInit Int 0)).currentStep = 99 ∧
      ¬ InRange 3 (setCurrentStep 99 (hookInit Int 0)).currentStep :=
  ⟨rfl, by decide⟩

/-- C4 amended: the clamping behaviour the claim describes belongs to the
web component's `currentStep` setter, which clamps every integer with
`max(0, min(value, totalSteps - 1))` — in range whenever `totalSteps ≥ 1`,
and `0` in the degenerate `totalSteps = 0` case — and never rejects; the
hook's `setCurrentStep`, by contrast, stores the argument unchanged without
any range check, leaving `stepData` and `errors` untouched. -/
theorem c4_setCurrentStep_amended {V : Type} (v : Int) (w : WCState)
    (s : HookState V) :
    (wcSetCurrentStep v w).1.current = max 0 (min v (w.totalSteps - 1)) ∧
    (1 ≤ w.totalSteps → InRange w.totalSteps (wcSetCurrentStep v w).1.current) ∧
    (w.totalSteps = 0 → (wcSetCurrentStep v w).1.current = 0) ∧
    (setCurrentStep v s).currentStep = v ∧
    (setCurrentStep v s).stepData = s.stepData ∧
    (setCurrentStep v s).errors = s.errors := by
  refine ⟨wcSet_current v w, ?_, ?_, rfl, rfl, rfl⟩
  · intro h1
    rw [wcSet_current]
    exact ⟨by omega, by omega⟩
  · intro h0
    rw [wcSet_current, h0]
    omega

/-- C4 witness: the amended theorem at `value = 99` on a 3-step web
component and on the hook. -/
theorem c4_setCurrentStep_witness :
    InRange 3 (wcSetCurrentStep 99 (WCState.mk 0 3)).1.current ∧
    (wcSetCurrentStep 99 (WCState.mk 0 3)).1.current = 2 ∧
    (setCurrentStep 99 (hookInit Int 1)).currentStep = 99 := by
  have h := c4_setCurrentStep_amended (V := Int) 99 (WCState.mk 0 3) (hookInit Int 1)
  refine ⟨h.2.1 (by decide), ?_, h.2.2.2.1⟩
  rw [h.1]
  decide

/-- C5: boundary no-ops.  In the hook, `next()` at the last index returns
`false` and changes nothing (whatever the validator would settle to, since
the `canGoNext` guard comes first), and `previous()` at index 0 returns
`false` and changes nothing; in the web component, `next()` at the last
index and `previous()` at index 0 leave the state unchanged and dispatch no
event (these methods return no value). -/
theorem c5_boundary_noops {V : Type} (totalSteps : Int) (vres : Option VRes)
    (s t : HookState V) (w x : WCState) :
    (s.currentStep = totalSteps - 1 →
      next totalSteps vres s = NavResult.mk false s none) ∧
    (t.currentStep = 0 → previous t = NavResult.mk false t none) ∧
    (w.current = w.totalSteps - 1 → wcNext w = (w, none)) ∧
    (x.current = 0 → wcPrevious x = (x, none)) := by
  refine ⟨?_, ?_, ?_, ?_⟩
  · intro h
    exact next_blocked vres (by omega)
  · intro h
    unfold previous
    rw [if_neg (by omega)]
  · intro h
    unfold wcNext
    rw [if_neg (by omega)]
  · intro h
    unfold wcPrevious
    rw [if_neg (by omega)]

/-- C5 witness: the boundary no-ops run concretely with 3 steps, at hook
index 2 and 0 and at web-component index 2 and 0. -/
theorem c5_boundary_noops_witness :
    next 3 none (hookInit Int 2) = NavResult.mk false (hookInit Int 2) none ∧
    previous (hookInit Int 0) = NavResult.mk false (hookInit Int 0) none ∧
    wcNext (WCState.mk 2 3) = (WCState.mk 2 3, none) ∧
    wcPrevious (WCState.mk 0 3) = (WCState.mk 0 3, none) := by
  have h := c5_boundary_noops 3 none (hookInit Int 2) (hookInit Int 0)
    (WCState.mk 2 3) (WCState.mk 0 3)
  exact ⟨h.1 (by decide), h.2.1 (by decide), h.2.2.1 (by decide),
    h.2.2.2 (by decide)⟩

/-- Progress formula written from the spec's words, for comparison with the
two implementations: `totalSteps <= 1 ? 100 :
round(currentIndex / (totalSteps - 1) * 100)`. -/
def spec_progress (currentIndex totalSteps : Int) : Int :=
  if totalSteps ≤ 1 then 100
  else jsRound (((currentIndex : ℚ) / ((totalSteps : ℚ) - 1)) * 100)

/-- C6: both the hook's derived `progress` and the web component's
`progress` getter equal the spec's pure function of `currentIndex` and
`totalSteps`: `100` when `totalSteps ≤ 1` (including the degenerate
`totalSteps = 0`), and `round(currentIndex / (totalSteps - 1) * 100)`
otherwise.  In the embedding, as in the source, neither is a stored field:
both are functions recomputed from the state on each read. -/
theorem c6_progress_formula {V : Type} (totalSteps : Int) (s : HookState V)
    (w : WCState) :
    hookProgress totalSteps s = spec_progress s.currentStep totalSteps ∧
    wcProgress w = spec_progress w.current w.totalSteps := by
  constructor
  · unfold hookProgress spec_progress
    rcases le_or_lt totalSteps 1 with h | h
    · rw [if_neg (by omega), if_pos h]
    · rw [if_pos h, if_neg (by omega)]
  · unfold wcProgress spec_progress
    rcases le_or_lt w.totalSteps 1 with h | h
    · rw [if_neg (by omega), if_pos h]
    · rw [if_pos h, if_neg (by omega)]

/-- C7: `complete()` runs the validator protocol of `next()` against the
current step: when no validator is configured or it settles to the literal
`true`, it returns `true` and invokes the completion notification with the
full `stepData` mapping; when it settles to any other value `r`, it returns
`false`, stores `r` as `errors[currentIndex]`, and fires no notification;
in every outcome `currentStep` — and the `stepData` mapping itself — is
left unchanged. -/
theorem c7_complete_protocol {V : Type} (vres : Option VRes) (r : VRes)
    (s : HookState V) :
    (complete vres s).state.currentStep = s.currentStep ∧
    (complete vres s).state.stepData = s.stepData ∧
    (vres = none ∨ vres = some (VRes.bool true) →
      complete vres s = CompleteResult.mk true s (some s.stepData)) ∧
    (vres = some r → r ≠ VRes.bool true →
      complete vres s
        = CompleteResult.mk false
            { s with errors := recSet s.errors s.currentStep (rejectVal r) }
            none) := by
  refine ⟨complete_cs vres s, ?_, ?_, ?_⟩
  · rcases vres with _ | r2
    · rfl
    · unfold complete
      dsimp only
      split <;> rfl
  · rintro (h | h) <;> subst h
    · rfl
    · unfold complete
      dsimp only
      rw [if_neg (by simp)]
  · rintro rfl hr
    unfold complete
    dsimp only
    rw [if_pos hr]

/-- C7 witness: `complete` run concretely from index 0 — a rejection
settling to the string `"bad"` stores the error and returns `false`
without moving, and a run with no validator configured returns `true` with
the full `stepData` payload. -/
theorem c7_complete_protocol_witness :
    (complete (some (VRes.str "bad")) (hookInit Int 0)).state.currentStep = 0 ∧
    complete (some (VRes.str "bad")) (hookInit Int 0)
      = CompleteResult.mk false
          { hookInit Int 0 with
              errors := recSet (hookInit Int 0).errors 0 (rejectVal (VRes.str "bad")) }
          none ∧
    complete none (hookInit Int 0)
      = CompleteResult.mk true (hookInit Int 0) (some (hookInit Int 0).stepData) := by
  refine ⟨(c7_complete_protocol (some (VRes.str "bad")) (VRes.str "bad")
      (hookInit Int 0)).1, ?_, ?_⟩
  · exact (c7_complete_protocol (some (VRes.str "bad")) (VRes.str "bad")
      (hookInit Int 0)).2.2.2 rfl (by simp)
  · exact (c7_complete_protocol none (VRes.bool false)
      (hookInit Int 0)).2.2.1 (Or.inl rfl)

/-- C8 counterexample: from a reachable state whose entry at step 0 already
holds `{c: 7}`, calling `updateStepData(0, {a:1})` and then
`updateStepData(0, {b:2})` merges into `{c:7, a:1, b:2}`: field `"c"` still
reads `7`, so the resulting entry is not `{a:1, b:2}`, which has no field
`"c"`. -/
theorem c8_merge_counterexample :
    (((updateStepData 0 (objSingle "b" (2 : Int))
        (updateStepData 0 (objSingle "a" 1)
          (updateStepData 0 (objSingle "c" 7) (hookInit Int 0)))).stepData 0).getD
        (emptyObj Int)) "c" = some 7 ∧
    objAB "c" = none := by
  constructor
  · rfl
  · rfl

/-- C8 amended: `updateStepData(k, {a:1})` followed by
`updateStepData(k, {b:2})` merges both patches into the existing entry
(created if absent): the resulting entry maps `"a"` to `1` and `"b"` to
`2`, while every other field keeps its previous value; in particular, when
the entry at `k` was absent (or empty) the result is exactly `{a:1, b:2}`. -/
theorem c8_merge_amended {V : Type} (k : Int) (va vb : V) (s : HookState V)
    (f : String) :
    roundTripEntry k va vb s "a" = some va ∧
    roundTripEntry k va vb s "b" = some vb ∧
    (f ≠ "a" → f ≠ "b" →
      roundTripEntry k va vb s f = ((s.stepData k).getD (emptyObj V)) f) := by
  have key : ∀ g : String,
      roundTripEntry k va vb s g
        = spreadMerge
            (spreadMerge ((s.stepData k).getD (emptyObj V)) (objSingle "a" va))
            (objSingle "b" vb) g := by
    intro g
    unfold roundTripEntry updateStepData
    simp [recSet]
  refine ⟨?_, ?_, ?_⟩
  · rw [key]
    simp [spreadMerge, objSingle]
  · rw [key]
    simp [spreadMerge, objSingle]
  · intro hfa hfb
    rw [key]
    simp [spreadMerge, objSingle, hfa, hfb]

/-- C8 witness: the amended round-trip run concretely from the fresh state:
the entry at step 0 becomes exactly `{a:1, b:2}` (field `"c"` stays
absent). -/
theorem c8_merge_witness :
    roundTripEntry 0 (1 : Int) 2 (hookInit Int 0) "a" = some 1 ∧
    roundTripEntry 0 (1 : Int) 2 (hookInit Int 0) "b" = some 2 ∧
    roundTripEntry 0 (1 : Int) 2 (hookInit Int 0) "c" = none := by
  have h := c8_merge_amended 0 (1 : Int) 2 (hookInit Int 0) "c"
  exact ⟨h.1, h.2.1, h.2.2 (by decide) (by decide)⟩

/-- C9: `reset()` is idempotent — two consecutive calls produce a state
equal to one call's — and the resulting observable state has `currentIndex`
equal to the original initial index, empty `stepData` and empty `errors`. -/
theorem c9_reset_idempotent {V : Type} (initialStep : Int) (s : HookState V)
    (k : Int) :
    reset V initialStep (reset V initialStep s) = reset V initialStep s ∧
    (reset V initialStep s).currentStep = initialStep ∧
    (reset V initialStep s).stepData k = none ∧
    (reset V initialStep s).errors k = none :=
  ⟨rfl, rfl, rfl, rfl⟩

/-- C10: frame property of `previous` and `goTo` — whether the navigation
succeeds or is rejected, the `stepData` and `errors` mappings are exactly
unchanged, so only `currentStep` (and the emitted notification) can differ.
In the embedding, as in the source bodies (react.tsx lines 120-137),
neither operation receives the validator at all, so no validator is
invoked. -/
theorem c10_frame_previous_goTo {V : Type} (totalSteps i : Int)
    (s : HookState V) :
    (previous s).state.stepData = s.stepData ∧
    (previous s).state.errors = s.errors ∧
    (goTo totalSteps i s).state.stepData = s.stepData ∧
    (goTo totalSteps i s).state.errors = s.errors := by
  refine ⟨?_, ?_, ?_, ?_⟩ <;>
    · simp only [previous, goTo]
      split <;> rfl

end Multistep
